import Mathlib

/-!
Verification of the monkey-watch orchestrator core (monkey_watch package).

Python strings are modelled as lists of characters (`Str`), so that every
string operation used by the source (strip, casefold, split, ...) is a
structurally recursive Lean function.  Python dicts are modelled as
association lists with overwrite-on-insert semantics, Python sets as
duplicate-free lists, and `collections.deque` as a plain list (front =
oldest).  Fallible operations return `Option` values, mirroring the
source's `(value, error)` tuples.
-/

/-- Model of a Python `str`: a list of characters. -/
abbrev Str := List Char

/-- Embeds a Lean string literal into the `Str` model. -/
def lit (s : String) : Str := s.data

/-- The single-quote character (used by the quote-stripping logic). -/
def squoteChar : Char := Char.ofNat 39

/-- The double-quote character (used by the quote-stripping logic). -/
def dquoteChar : Char := Char.ofNat 34

/-- Python `str.lstrip()`: drop leading whitespace. -/
def lstrip (s : Str) : Str := s.dropWhile Char.isWhitespace

/-- Python `str.strip()`: drop leading and trailing whitespace. -/
def strip (s : Str) : Str :=
  ((s.dropWhile Char.isWhitespace).reverse.dropWhile Char.isWhitespace).reverse

/-- Python `str.rstrip(chars)`: drop trailing characters from `chars`. -/
def rstripSet (chars : List Char) (s : Str) : Str :=
  (s.reverse.dropWhile (fun c => c ∈ chars)).reverse

/-- Python `str.casefold()` (ASCII model: lowercase every character). -/
def casefold (s : Str) : Str := s.map Char.toLower

/-- Python `str.lower()` (ASCII model: lowercase every character). -/
def lower (s : Str) : Str := s.map Char.toLower

/-- Python `str.isdigit()`: non-empty and all characters are digits. -/
def isdigit (s : Str) : Bool := !s.isEmpty && s.all Char.isDigit

/-- Python `int(s)` on a digit string (decimal). -/
def strToNat (s : Str) : Nat :=
  s.foldl (fun acc c => acc * 10 + (c.toNat - 48)) 0

/-- Auxiliary digit rendering with fuel (structural recursion). -/
def natToStrAux : Nat → Nat → Str
  | 0, _ => []
  | fuel + 1, n =>
    if n < 10 then [Char.ofNat (n % 10 + 48)]
    else natToStrAux fuel (n / 10) ++ [Char.ofNat (n % 10 + 48)]

/-- Python `str(n)` for a non-negative integer: decimal rendering. -/
def natToStr (n : Nat) : Str := natToStrAux (n + 1) n

/-- Python `s.split(sep, 1)`: split at the first occurrence of `sep`;
`none` when `sep` does not occur (also models `sep in s`). -/
def splitFirst (sep : Char) : Str → Option (Str × Str)
  | [] => none
  | c :: rest =>
    if c = sep then some ([], rest)
    else
      match splitFirst sep rest with
      | some (l, r) => some (c :: l, r)
      | none => none

/-- Python `s.split(sep)`: split at every occurrence of `sep`
(keeps empty parts, like Python). -/
def splitAll (sep : Char) : Str → List Str
  | [] => [[]]
  | c :: rest =>
    let parts := splitAll sep rest
    if c = sep then [] :: parts
    else
      match parts with
      | [] => [[c]]
      | p :: ps => (c :: p) :: ps

/-- Fueled worker for whitespace tokenisation. -/
def splitWsAux : Nat → Str → List Str
  | 0, _ => []
  | fuel + 1, s =>
    match s.dropWhile Char.isWhitespace with
    | [] => []
    | c :: cs =>
      ((c :: cs).takeWhile (fun ch => !ch.isWhitespace)) ::
        splitWsAux fuel ((c :: cs).dropWhile (fun ch => !ch.isWhitespace))

/-- Python `s.split()`: split on whitespace runs, dropping empty tokens. -/
def splitWs (s : Str) : List Str := splitWsAux s.length s

/-- Python dict assignment `m[k] = v` on an association list
(overwrites an existing binding, appends a new one otherwise). -/
def dictInsert {α : Type} (k : Str) (v : α) : List (Str × α) → List (Str × α)
  | [] => [(k, v)]
  | (k', v') :: rest =>
    if k' = k then (k, v) :: rest else (k', v') :: dictInsert k v rest

/-- Python dict lookup `m.get(k)` on an association list. -/
def dictGet {α : Type} (k : Str) : List (Str × α) → Option α
  | [] => none
  | (k', v) :: rest => if k' = k then some v else dictGet k rest

/-- Python `m.setdefault(k, []).append(v)` on an association list of lists. -/
def multiAppend {α : Type} (k : Str) (v : α) :
    List (Str × List α) → List (Str × List α)
  | [] => [(k, [v])]
  | (k', vs) :: rest =>
    if k' = k then (k', vs ++ [v]) :: rest else (k', vs) :: multiAppend k v rest

/-- Python `m.get(k, [])` on an association list of lists. -/
def getMulti {α : Type} (k : Str) (m : List (Str × List α)) : List α :=
  (dictGet k m).getD []

/-! ## events.py: GlobalDedupe -/

/-- State of `GlobalDedupe` (events.py): `_limit` (already clamped by
`max(0, limit)`), `_ids` (a Python set, modelled as a duplicate-free list)
and `_order` (a deque, front = oldest). -/
structure GlobalDedupe where
  limit : Nat
  ids : List Str
  order : List Str
deriving DecidableEq

/-- The eviction loop of `GlobalDedupe.allow`:
`while len(order) > limit: oldest = order.popleft(); ids.discard(oldest)`. -/
def evictLoop (limit : Nat) : List Str → List Str → List Str × List Str
  | [], ids => ([], ids)
  | oldest :: rest, ids =>
    if limit < rest.length + 1 then evictLoop limit rest (ids.erase oldest)
    else (oldest :: rest, ids)

/-- `GlobalDedupe.__init__(limit)`: `_limit = max(0, limit)`, empty views. -/
def GlobalDedupe.init (limit : Int) : GlobalDedupe :=
  { limit := limit.toNat, ids := [], order := [] }

/-- `GlobalDedupe.allow(message_id)` (events.py lines 61-72): returns the
boolean result together with the updated cache. -/
def GlobalDedupe.allow (d : GlobalDedupe) (message_id : Str) : Bool × GlobalDedupe :=
  if message_id = [] then (true, d)
  else if message_id ∈ d.ids then (false, d)
  else if 0 < d.limit then
    (true,
      { d with
        ids := (evictLoop d.limit (d.order ++ [message_id]) (d.ids ++ [message_id])).2,
        order := (evictLoop d.limit (d.order ++ [message_id]) (d.ids ++ [message_id])).1 })
  else
    (true, { d with ids := d.ids ++ [message_id], order := d.order ++ [message_id] })

/-- A sequence of `allow` calls, keeping only the final cache state. -/
def runAllows (d : GlobalDedupe) (msgs : List Str) : GlobalDedupe :=
  msgs.foldl (fun st m => (st.allow m).2) d

/-- Invariant tying the set view to the deque view of the dedupe cache. -/
def DedupeInv (d : GlobalDedupe) : Prop :=
  d.ids = d.order ∧ (0 < d.limit → d.order.length ≤ d.limit)

theorem evictLoop_of_le {limit : Nat} {order ids : List Str}
    (h : order.length ≤ limit) : evictLoop limit order ids = (order, ids) := by
  cases order with
  | nil => rfl
  | cons c rest =>
    simp only [evictLoop, List.length_cons] at *
    rw [if_neg (by omega)]

theorem dedupeInv_init (limit : Int) : DedupeInv (GlobalDedupe.init limit) := by
  constructor <;> simp [GlobalDedupe.init]

/-- `allow` on an empty id touches nothing and reports "new". -/
theorem allow_empty (d : GlobalDedupe) : d.allow [] = (true, d) := rfl

/-- `allow` on an already-retained id reports a duplicate and touches nothing. -/
theorem allow_mem {d : GlobalDedupe} {id : Str} (hne : id ≠ [])
    (hmem : id ∈ d.ids) : d.allow id = (false, d) := by
  unfold GlobalDedupe.allow
  rw [if_neg hne, if_pos hmem]

/-- `allow` on a fresh id at a positive limit: reports "new", appends the id
at the back, and pops the oldest id exactly when the cache was full. -/
theorem allow_new {d : GlobalDedupe} {id : Str} (hinv : DedupeInv d)
    (hpos : 0 < d.limit) (hne : id ≠ []) (hmem : id ∉ d.ids) :
    d.allow id =
      (true,
        { d with
          order := (if d.order.length = d.limit then d.order.tail else d.order) ++ [id],
          ids := (if d.order.length = d.limit then d.order.tail else d.order) ++ [id] }) := by
  obtain ⟨hids, hlen⟩ := hinv
  have hlen' := hlen hpos
  unfold GlobalDedupe.allow
  rw [if_neg hne, if_neg hmem, if_pos hpos]
  by_cases hfull : d.order.length = d.limit
  · rw [if_pos hfull]
    cases horder : d.order with
    | nil => rw [horder] at hfull; simp at hfull; omega
    | cons h t =>
      have hrec : evictLoop d.limit ((h :: t) ++ [id]) (d.ids ++ [id]) =
          (t ++ [id], (d.ids ++ [id]).erase h) := by
        have hcond : d.limit < (t ++ [id]).length + 1 := by
          rw [horder] at hfull
          simp only [List.length_cons] at hfull
          simp only [List.length_append, List.length_cons]
          omega
        simp only [List.cons_append, evictLoop, List.append_eq]
        rw [if_pos hcond, evictLoop_of_le]
        have h1 : (t ++ [id]).length = t.length + 1 := by simp
        have h2 : d.order.length = t.length + 1 := by rw [horder]; simp
        omega
      have herase : (d.ids ++ [id]).erase h = t ++ [id] := by
        rw [hids, horder]
        simp only [List.cons_append]
        rw [List.erase_cons_head]
      rw [hrec, herase]
      simp
  · rw [if_neg hfull]
    have : (d.order ++ [id]).length ≤ d.limit := by
      simp only [List.length_append, List.length_cons, List.length_nil]
      omega
    rw [evictLoop_of_le this, hids]

theorem dedupeInv_allow {d : GlobalDedupe} {id : Str} (hinv : DedupeInv d) :
    DedupeInv (d.allow id).2 := by
  by_cases hne : id = []
  · subst hne; rw [allow_empty]; exact hinv
  by_cases hmem : id ∈ d.ids
  · rw [allow_mem hne hmem]; exact hinv
  obtain ⟨hids, hlen⟩ := hinv
  by_cases hpos : 0 < d.limit
  · rw [allow_new ⟨hids, hlen⟩ hpos hne hmem]
    refine ⟨rfl, fun _ => ?_⟩
    by_cases hfull : d.order.length = d.limit
    · rw [if_pos hfull]
      cases horder : d.order with
      | nil => rw [horder] at hfull; simp at hfull; omega
      | cons h t =>
        rw [horder] at hfull
        simp only [List.length_cons] at hfull
        simp only [List.tail_cons, List.length_append, List.length_cons,
          List.length_nil]
        omega
    · rw [if_neg hfull]
      have := hlen hpos
      simp only [List.length_append, List.length_cons, List.length_nil]
      omega
  · unfold GlobalDedupe.allow
    rw [if_neg hne, if_neg hmem, if_neg hpos]
    exact ⟨by simp [hids], fun h => absurd h hpos⟩

theorem dedupeInv_runAllows (d : GlobalDedupe) (msgs : List Str)
    (hinv : DedupeInv d) : DedupeInv (runAllows d msgs) := by
  induction msgs generalizing d with
  | nil => exact hinv
  | cons m rest ih => exact ih _ (dedupeInv_allow hinv)

theorem allow_limit (d : GlobalDedupe) (id : Str) : (d.allow id).2.limit = d.limit := by
  unfold GlobalDedupe.allow
  repeat' split
  all_goals rfl

theorem runAllows_limit (d : GlobalDedupe) (msgs : List Str) :
    (runAllows d msgs).limit = d.limit := by
  induction msgs generalizing d with
  | nil => rfl
  | cons m rest ih =>
    have hstep : runAllows d (m :: rest) = runAllows (d.allow m).2 rest := rfl
    rw [hstep, ih, allow_limit]

/-- C1: on a dedupe cache with positive limit reached by any sequence of
`allow` calls, a non-empty id that is not currently retained is allowed and
recorded; an immediately repeated call with the same id is rejected; and with
limit 3 after inserting a, b, c, d in order, `allow a` succeeds again (a was
evicted, FIFO) while `allow b` and `allow c` are still rejected. -/
theorem dedupe_allow_fifo_behaviour (limit : Int) (msgs : List Str) (id : Str)
    (hpos : 0 < limit) (hne : id ≠ []) :
    ((id ∉ (runAllows (GlobalDedupe.init limit) msgs).ids →
        ((runAllows (GlobalDedupe.init limit) msgs).allow id).1 = true ∧
          id ∈ ((runAllows (GlobalDedupe.init limit) msgs).allow id).2.ids) ∧
      (((runAllows (GlobalDedupe.init limit) msgs).allow id).2.allow id).1 = false) ∧
    ((runAllows (GlobalDedupe.init 3)
        [lit "a", lit "b", lit "c", lit "d"]).allow (lit "a")).1 = true ∧
    ((runAllows (GlobalDedupe.init 3)
        [lit "a", lit "b", lit "c", lit "d"]).allow (lit "b")).1 = false ∧
    ((runAllows (GlobalDedupe.init 3)
        [lit "a", lit "b", lit "c", lit "d"]).allow (lit "c")).1 = false := by
  have hinv := dedupeInv_runAllows (GlobalDedupe.init limit) msgs (dedupeInv_init limit)
  have hlim : (runAllows (GlobalDedupe.init limit) msgs).limit = limit.toNat := by
    rw [runAllows_limit]; rfl
  have hposd : 0 < (runAllows (GlobalDedupe.init limit) msgs).limit := by
    rw [hlim]; omega
  refine ⟨⟨?_, ?_⟩, by decide, by decide, by decide⟩
  · intro hmem
    rw [allow_new hinv hposd hne hmem]
    exact ⟨rfl, by simp⟩
  · by_cases hmem : id ∈ (runAllows (GlobalDedupe.init limit) msgs).ids
    · rw [allow_mem hne hmem, allow_mem hne hmem]
    · rw [allow_new hinv hposd hne hmem]
      have hmem2 : id ∈ (if (runAllows (GlobalDedupe.init limit) msgs).order.length =
            (runAllows (GlobalDedupe.init limit) msgs).limit
          then (runAllows (GlobalDedupe.init limit) msgs).order.tail
          else (runAllows (GlobalDedupe.init limit) msgs).order) ++ [id] := by simp
      rw [allow_mem hne hmem2]

/-- C6 counterexample: a cache constructed with limit 0 retains more than 0
identifiers after one `allow` call (the eviction loop is skipped when the
clamped limit is not positive), so the claim fails for non-positive limits. -/
theorem dedupe_limit_zero_counterexample :
    ¬ (((GlobalDedupe.init 0).allow (lit "a")).2.ids.length ≤
        ((GlobalDedupe.init 0).allow (lit "a")).2.limit) := by decide

/-- C6 (amended to positive limits): for every positive limit and every
sequence of `allow` calls the cache retains at most `limit` identifiers, the
set view equals the FIFO insertion-order view, inserting a fresh id into a
full cache evicts exactly the oldest id, and an empty identifier is always
treated as new and never recorded. -/
theorem dedupe_bounded_fifo (limit : Int) (msgs : List Str) (hpos : 0 < limit) :
    ((runAllows (GlobalDedupe.init limit) msgs).order.length ≤ limit.toNat ∧
      (runAllows (GlobalDedupe.init limit) msgs).ids =
        (runAllows (GlobalDedupe.init limit) msgs).order) ∧
    (∀ id : Str, id ≠ [] → id ∉ (runAllows (GlobalDedupe.init limit) msgs).ids →
      ((runAllows (GlobalDedupe.init limit) msgs).allow id).2.order =
        (if (runAllows (GlobalDedupe.init limit) msgs).order.length = limit.toNat
          then (runAllows (GlobalDedupe.init limit) msgs).order.tail
          else (runAllows (GlobalDedupe.init limit) msgs).order) ++ [id]) ∧
    (∀ d : GlobalDedupe, d.allow [] = (true, d)) := by
  have hinv := dedupeInv_runAllows (GlobalDedupe.init limit) msgs (dedupeInv_init limit)
  have hlim : (runAllows (GlobalDedupe.init limit) msgs).limit = limit.toNat := by
    rw [runAllows_limit]; rfl
  have hposd : 0 < (runAllows (GlobalDedupe.init limit) msgs).limit := by
    rw [hlim]; omega
  refine ⟨⟨?_, hinv.1⟩, ?_, fun d => allow_empty d⟩
  · have := hinv.2 hposd
    omega
  · intro id hne hmem
    rw [allow_new hinv hposd hne hmem, hlim]

theorem dedupe_allow_fifo_behaviour_witness :
    (0 : Int) < 1 ∧ lit "x" ≠ [] ∧
      (((runAllows (GlobalDedupe.init 1) []).allow (lit "x")).2.allow (lit "x")).1 = false :=
  ⟨by decide, by decide,
    (dedupe_allow_fifo_behaviour 1 [] (lit "x") (by decide) (by decide)).1.2⟩

theorem dedupe_bounded_fifo_witness :
    (0 : Int) < 2 ∧
      (runAllows (GlobalDedupe.init 2) [lit "a", lit "b", lit "c"]).order.length ≤
        (2 : Int).toNat :=
  ⟨by decide,
    (dedupe_bounded_fifo 2 [lit "a", lit "b", lit "c"] (by decide)).1.1⟩

/-! ## commands.py: data model and channel directory -/

/-- `ChannelRef` (commands.py lines 9-19). -/
structure ChannelRef where
  guild_id : Str
  channel_id : Str
  channel_name : Str
  server_name : Str
  server_index : Nat := 0
  channel_index : Nat := 0
deriving DecidableEq

/-- `ServerRef` (commands.py lines 22-27). -/
structure ServerRef where
  server_index : Nat
  guild_id : Str
  server_name : Str
  channels : List ChannelRef
deriving DecidableEq

/-- `ChannelIndex` (commands.py lines 30-34); the two dicts are modelled as
association lists. -/
structure ChannelIndex where
  by_id : List (Str × ChannelRef)
  by_name : List (Str × List ChannelRef)
  servers : List ServerRef
deriving DecidableEq

/-- `Command` (commands.py lines 37-45). -/
structure Command where
  target : Option Str
  action : Str
  text : Str
  guild_id : Str := []
  channel_id : Str := []
  channel_name : Str := []
  source : Str := []
deriving DecidableEq

/-- One channel record of the `servers.json` input (id and name, already
coerced to strings as by `str(channel.get("id", "") or "")`). -/
structure ChannelRecord where
  id : Str
  name : Str
deriving DecidableEq

/-- One server record of the `servers.json` input; `channels` is `none` when
the `channels` entry is missing or not a list. -/
structure ServerRecord where
  name : Str
  server_id : Str
  id : Str
  channels : Option (List ChannelRecord)
deriving DecidableEq

/-- The two dict views threaded through `build_channel_index`'s loops. -/
structure BuildState where
  by_id : List (Str × ChannelRef)
  by_name : List (Str × List ChannelRef)
deriving DecidableEq

/-- The `ChannelRef` constructed for one retained channel record
(commands.py lines 63-70). -/
def mkChannelRef (guild_id server_name : Str) (server_idx channel_idx : Nat)
    (channel : ChannelRecord) : ChannelRef :=
  { guild_id := strip guild_id
    channel_id := strip channel.id
    channel_name := strip channel.name
    server_name := strip server_name
    server_index := server_idx
    channel_index := channel_idx }

/-- The dict updates performed for one retained channel record
(commands.py lines 72-75): insert into `by_id`, and append to `by_name`
when the trimmed channel name is non-empty. -/
def insertRef (ref : ChannelRef) (st : BuildState) : BuildState :=
  if ref.channel_name ≠ [] then
    { by_id := dictInsert ref.channel_id ref st.by_id
      by_name := multiAppend (casefold ref.channel_name) ref st.by_name }
  else
    { by_id := dictInsert ref.channel_id ref st.by_id, by_name := st.by_name }

/-- The inner loop of `build_channel_index` (commands.py lines 58-75):
`for channel_idx, channel in enumerate(channels, start=1)`, skipping records
with an empty id and updating both dict views. -/
def processChannels (guild_id server_name : Str) (server_idx : Nat) :
    Nat → List ChannelRecord → BuildState → List ChannelRef × BuildState
  | _, [], st => ([], st)
  | channel_idx, channel :: rest, st =>
    if channel.id = [] then
      processChannels guild_id server_name server_idx (channel_idx + 1) rest st
    else
      (mkChannelRef guild_id server_name server_idx channel_idx channel ::
        (processChannels guild_id server_name server_idx (channel_idx + 1) rest
          (insertRef (mkChannelRef guild_id server_name server_idx channel_idx channel) st)).1,
       (processChannels guild_id server_name server_idx (channel_idx + 1) rest
          (insertRef (mkChannelRef guild_id server_name server_idx channel_idx channel) st)).2)

/-- `str(server.get("server_id", "") or server.get("id", "") or "")`
(commands.py line 55). -/
def serverGuildId (server : ServerRecord) : Str :=
  if server.server_id ≠ [] then server.server_id else server.id

/-- The channel pass for one server record: the body of the
`isinstance(channels, list)` guard (commands.py lines 57-75). -/
def processServerChannels (server_idx : Nat) (server : ServerRecord)
    (st : BuildState) : List ChannelRef × BuildState :=
  match server.channels with
  | some cs => processChannels (serverGuildId server) server.name server_idx 1 cs st
  | none => ([], st)

/-- The outer loop of `build_channel_index` (commands.py lines 52-83):
`for server_idx, server in enumerate(servers, start=1)`. -/
def processServers : Nat → List ServerRecord → BuildState → List ServerRef × BuildState
  | _, [], st => ([], st)
  | server_idx, server :: rest, st =>
    (({ server_index := server_idx
        guild_id := strip (serverGuildId server)
        server_name := strip server.name
        channels := (processServerChannels server_idx server st).1 } : ServerRef) ::
      (processServers (server_idx + 1) rest (processServerChannels server_idx server st).2).1,
     (processServers (server_idx + 1) rest (processServerChannels server_idx server st).2).2)

/-- `build_channel_index(servers)` (commands.py lines 48-84). -/
def build_channel_index (servers : List ServerRecord) : ChannelIndex :=
  let res := processServers 1 servers ⟨[], []⟩
  { by_id := res.2.by_id, by_name := res.2.by_name, servers := res.1 }

/-- `_normalize_name(value)` (commands.py lines 87-88). -/
def normalize_name (value : Str) : Str := casefold (strip value)

/-- All channel refs retained by the directory, in build order. -/
def allRefs (ci : ChannelIndex) : List ChannelRef :=
  (ci.servers.map ServerRef.channels).flatten

/-- Quote stripping at the top of `resolve_goto_argument` (commands.py lines
148-149): a matching pair of surrounding quotes is removed and the inside is
stripped again. -/
def stripQuotes : Str → Str
  | [] => []
  | [c] => [c]
  | c :: d :: rest =>
    if (d :: rest).getLast? = some c ∧ (c = squoteChar ∨ c = dquoteChar) then
      strip ((d :: rest).dropLast)
    else c :: d :: rest

/-- A placeholder `ServerRef`; positional lookups are guarded by explicit
bounds checks, so the placeholder is never produced by `resolve_goto_argument`. -/
def dummyServerRef : ServerRef := ⟨0, [], [], []⟩

/-- A placeholder `ChannelRef` for guarded positional lookups. -/
def dummyChannelRef : ChannelRef := ⟨[], [], [], [], 0, 0⟩

/-- `resolve_goto_argument(argument, channel_index)` (commands.py lines
143-248). -/
def resolve_goto_argument (argument : Str) (channel_index : ChannelIndex) :
    Option ChannelRef × Option Str :=
  let cleaned := stripQuotes (strip argument)
  if cleaned = [] then (none, some (lit "missing channel"))
  else
    match splitFirst ':' cleaned with
    | some lr =>
      let left := strip lr.1
      let right := strip lr.2
      if left = [] ∨ right = [] then
        (none, some (lit "expected server:channel or server_index:channel_index"))
      else if isdigit left then
        let server_idx := strToNat left
        if server_idx < 1 ∨ channel_index.servers.length < server_idx then
          (none, some (lit "unknown server index: " ++ left))
        else
          let server_ref := channel_index.servers.getD (server_idx - 1) dummyServerRef
          if isdigit right then
            let channel_idx := strToNat right
            if channel_idx < 1 ∨ server_ref.channels.length < channel_idx then
              (none, some (lit "unknown channel index: " ++ left ++ ':' :: right))
            else
              (some (server_ref.channels.getD (channel_idx - 1) dummyChannelRef), none)
          else
            let target := normalize_name right
            match server_ref.channels.filter
                (fun ref => normalize_name ref.channel_name == target) with
            | [] =>
              (none, some (lit "unknown channel name: " ++ right ++
                lit " (server " ++ left ++ lit ")"))
            | [m] => (some m, none)
            | ms =>
              (none, some (lit "ambiguous channel name: " ++ right ++ lit " (" ++
                List.intercalate (lit ", ")
                  (ms.map (fun ref => left ++ ':' :: natToStr ref.channel_index)) ++
                lit ")"))
      else
        let target_server := normalize_name left
        match channel_index.servers.filter
            (fun ref => normalize_name ref.server_name == target_server) with
        | [] => (none, some (lit "unknown server name: " ++ left))
        | [server_ref] =>
          if isdigit right then
            let channel_idx := strToNat right
            if channel_idx < 1 ∨ server_ref.channels.length < channel_idx then
              (none, some (lit "unknown channel index: " ++
                natToStr server_ref.server_index ++ ':' :: right))
            else
              (some (server_ref.channels.getD (channel_idx - 1) dummyChannelRef), none)
          else
            let target := normalize_name right
            match server_ref.channels.filter
                (fun ref => normalize_name ref.channel_name == target) with
            | [] =>
              (none, some (lit "unknown channel name: " ++ right ++
                lit " (server " ++ server_ref.server_name ++ lit ")"))
            | [m] => (some m, none)
            | ms =>
              (none, some (lit "ambiguous channel name: " ++ right ++ lit " (" ++
                List.intercalate (lit ", ")
                  (ms.map (fun ref =>
                    natToStr server_ref.server_index ++ ':' :: natToStr ref.channel_index)) ++
                lit ")"))
        | srefs =>
          (none, some (lit "ambiguous server name: " ++ left ++ lit " (" ++
            List.intercalate (lit ", ")
              (srefs.map (fun ref => natToStr ref.server_index ++ ':' :: ref.server_name)) ++
            lit ")"))
    | none =>
      if '/' ∈ cleaned then
        match (splitAll '/' cleaned).filter (fun part => !part.isEmpty) with
        | p0 :: p1 :: _ =>
          if isdigit p0 && isdigit p1 then
            match dictGet p1 channel_index.by_id with
            | some ref =>
              (some { guild_id := p0, channel_id := p1,
                      channel_name := ref.channel_name, server_name := ref.server_name,
                      server_index := ref.server_index,
                      channel_index := ref.channel_index }, none)
            | none =>
              (some { guild_id := p0, channel_id := p1, channel_name := [],
                      server_name := [], server_index := 0, channel_index := 0 }, none)
          else (none, some (lit "expected channel as guild_id/channel_id"))
        | _ => (none, some (lit "expected channel as guild_id/channel_id"))
      else if isdigit cleaned then
        match dictGet cleaned channel_index.by_id with
        | some ref => (some ref, none)
        | none => (none, some (lit "unknown channel id: " ++ cleaned))
      else
        match getMulti (normalize_name cleaned) channel_index.by_name with
        | [] => (none, some (lit "unknown channel name: " ++ cleaned))
        | [m] => (some m, none)
        | ms =>
          (none, some (lit "ambiguous channel name: " ++ cleaned ++ lit " (" ++
            List.intercalate (lit ", ")
              (ms.map (fun ref =>
                natToStr ref.server_index ++ ':' :: natToStr ref.channel_index)) ++
            lit ")"))

/-- `build_help()` (commands.py lines 251-255). -/
def build_help : Str :=
  lit "commands: [@monkey-id] goto <channel|server:channel|server_index:channel_index> | [@monkey-id] say <text> | go home | servers"

/-- One channel line of `format_servers` (commands.py lines 271-276). -/
def formatChannelLine (channel : ChannelRef) : Str :=
  let channel_label :=
    if channel.channel_name ≠ [] then channel.channel_name
    else if channel.channel_id ≠ [] then channel.channel_id
    else lit "unknown-channel"
  let line := lit "  " ++ natToStr channel.channel_index ++ lit ") " ++ channel_label
  if channel.channel_id ≠ [] then line ++ lit " (id=" ++ channel.channel_id ++ lit ")"
  else line

/-- The lines contributed by one server in `format_servers`
(commands.py lines 262-276). -/
def formatServerBlock (server : ServerRef) : List Str :=
  let server_label :=
    if server.server_name ≠ [] then server.server_name else lit "unknown-server"
  let server_line := natToStr server.server_index ++ lit ") " ++ server_label
  let server_line :=
    if server.guild_id ≠ [] then server_line ++ lit " (id=" ++ server.guild_id ++ lit ")"
    else server_line
  if server.channels = [] then [server_line, lit "  (no channels)"]
  else server_line :: server.channels.map formatChannelLine

/-- `format_servers(channel_index)` (commands.py lines 258-278). -/
def format_servers (channel_index : ChannelIndex) : Str :=
  if channel_index.servers = [] then lit "no servers loaded (servers.json missing or empty)"
  else
    List.intercalate (lit "\n")
      (lit "servers:" :: (channel_index.servers.map formatServerBlock).flatten ++
        [lit "goto <server_index>:<channel_index> to jump quickly."])

/-- `parse_command_line(line, monkey_ids)` (commands.py lines 91-140); the
`monkey_ids` parameter is unused, exactly as in the source. -/
def parse_command_line (line : Str) (_monkey_ids : List Str) :
    Option Command × Option Str :=
  let cleaned := strip line
  if cleaned = [] then (none, none)
  else
    match splitWs cleaned with
    | [] => (none, none)
    | first :: rest0 =>
      let targetTokens : Option Str × List Str :=
        if first.head? = some '@' then
          let candidate := rstripSet [':', ','] (strip (first.drop 1))
          (if candidate = lit "all" ∨ candidate = lit "*" then none else some candidate,
            rest0)
        else (none, first :: rest0)
      match targetTokens.2 with
      | [] => (none, some (lit "missing command (try: goto <channel> or say <text>)"))
      | tok :: toks =>
        let target := targetTokens.1
        let action := lower tok
        let rest := strip (List.intercalate (lit " ") toks)
        if action = lit "go" then
          if lower rest = lit "home" then
            (some { target := target, action := lit "home", text := [] }, none)
          else (none, some (lit "unknown command: go"))
        else if action = lit "help" ∨ action = lit "?" then
          (some { target := target, action := lit "help", text := [] }, none)
        else if action = lit "servers" ∨ action = lit "server" ∨ action = lit "list" then
          (some { target := target, action := lit "servers", text := [] }, none)
        else if action = lit "home" then
          (some { target := target, action := lit "home", text := [] }, none)
        else if action ≠ lit "goto" ∧ action ≠ lit "say" then
          (none, some (lit "unknown command: " ++ action))
        else if action = lit "goto" ∧ rest = [] then
          (none, some (lit "goto requires a channel name or id"))
        else if action = lit "say" ∧ rest = [] then
          (none, some (lit "say requires message text"))
        else (some { target := target, action := action, text := rest }, none)

/-! ## config.py: DefaultChannel; cli.py: the command dispatcher -/

/-- `DefaultChannel` (config.py lines 31-38). -/
structure DefaultChannel where
  guild_id : Str
  channel_id : Str
  label : Str
deriving DecidableEq

/-- `DefaultChannel.is_set()` (config.py lines 37-38). -/
def DefaultChannel.is_set (dc : DefaultChannel) : Bool :=
  !dc.guild_id.isEmpty && !dc.channel_id.isEmpty

/-- The context captured by the `dispatch_command_line` closure in `main`
(cli.py): the worker-id list, the channel directory and the configured
default channel. -/
structure DispatchConfig where
  monkey_ids : List Str
  channel_index : ChannelIndex
  default_channel : DefaultChannel

/-- `command_queues[target].put(resolved)`: append one command to one
worker's queue (queues are modelled as a total map from worker id to the
queue contents, oldest first). -/
def putCommand (queues : Str → List Command) (target : Str) (c : Command) :
    Str → List Command :=
  fun id => if id = target then queues id ++ [c] else queues id

/-- `for target in targets: command_queues[target].put(resolved)`. -/
def putAll (queues : Str → List Command) (targets : List Str) (c : Command) :
    Str → List Command :=
  targets.foldl (fun q t => putCommand q t c) queues

/-- The per-action tail of `dispatch_command_line` (cli.py lines 359-405),
reached after target resolution. -/
def dispatchResolved (cfg : DispatchConfig) (queues : Str → List Command)
    (command : Command) (targets : List Str) (source : Str) :
    Str × (Str → List Command) :=
  if command.action = lit "goto" then
    match resolve_goto_argument command.text cfg.channel_index with
    | (_, some error) => (error, queues)
    | (none, none) => (lit "unable to resolve channel", queues)
    | (some ref, none) =>
      (lit "ok", putAll queues targets
        { target := command.target, action := lit "goto", text := command.text,
          guild_id := ref.guild_id, channel_id := ref.channel_id,
          channel_name := ref.channel_name, source := source })
  else if command.action = lit "home" then
    if !cfg.default_channel.is_set then (lit "default channel not configured", queues)
    else
      (lit "ok", putAll queues targets
        { target := command.target, action := lit "goto", text := lit "home",
          guild_id := cfg.default_channel.guild_id,
          channel_id := cfg.default_channel.channel_id,
          channel_name := cfg.default_channel.label, source := source })
  else if command.action = lit "say" then
    (lit "ok", putAll queues targets
      { target := command.target, action := lit "say", text := command.text,
        source := source })
  else (lit "unhandled command: " ++ command.action, queues)

/-- `dispatch_command_line(line, source)` (cli.py lines 340-405): returns the
response string together with the updated per-worker queues. -/
def dispatch_command_line (cfg : DispatchConfig) (queues : Str → List Command)
    (line source : Str) : Str × (Str → List Command) :=
  match parse_command_line line cfg.monkey_ids with
  | (_, some error) => (error, queues)
  | (none, none) => ([], queues)
  | (some command, none) =>
    if command.action = lit "help" then (build_help, queues)
    else if command.action = lit "servers" then (format_servers cfg.channel_index, queues)
    else
      match command.target with
      | some t =>
        if t ∈ cfg.monkey_ids then dispatchResolved cfg queues command [t] source
        else (lit "unknown monkey: " ++ t, queues)
      | none => dispatchResolved cfg queues command cfg.monkey_ids source

/-- `CommandDispatcher.handle_line` (control.py lines 15-19): an empty
response from the handler is canonicalised to the literal `ok`. -/
def handle_line (cfg : DispatchConfig) (queues : Str → List Command)
    (line source : Str) : Str × (Str → List Command) :=
  let res := dispatch_command_line cfg queues line source
  (if res.1 = [] then lit "ok" else res.1, res.2)

/-! ## Helper lemmas: characters, digit strings, splitting -/

theorem ne_of_digit {c d : Char} (h : c.isDigit = true) (hd : d.isDigit = false) :
    ¬ c = d := by
  intro heq; rw [heq, hd] at h; exact Bool.false_ne_true h

theorem not_ws_of_isDigit {c : Char} (h : c.isDigit = true) : c.isWhitespace = false := by
  simp only [Char.isWhitespace, Bool.or_eq_false_iff, decide_eq_false_iff_not]
  refine ⟨⟨⟨ne_of_digit h ?_, ne_of_digit h ?_⟩, ne_of_digit h ?_⟩,
    ne_of_digit h ?_⟩ <;> decide

theorem isdigit_ne_nil {s : Str} (h : isdigit s = true) : s ≠ [] := by
  intro heq; subst heq; exact absurd h (by decide)

theorem mem_digit_of_isdigit {s : Str} (h : isdigit s = true) :
    ∀ c ∈ s, c.isDigit = true := by
  simp only [isdigit, Bool.and_eq_true, List.all_eq_true] at h
  intro c hc
  exact h.2 c hc

theorem not_mem_of_digits {s : Str} (h : ∀ c ∈ s, c.isDigit = true) {d : Char}
    (hd : d.isDigit = false) : d ∉ s := by
  intro hmem
  rw [h d hmem] at hd
  simp at hd

theorem dropWhile_ws_of_no_ws {s : Str} (h : ∀ c ∈ s, c.isWhitespace = false) :
    s.dropWhile Char.isWhitespace = s := by
  cases s with
  | nil => rfl
  | cons c rest =>
    rw [List.dropWhile_cons, h c (List.mem_cons_self c rest)]
    simp

theorem strip_of_no_ws {s : Str} (h : ∀ c ∈ s, c.isWhitespace = false) : strip s = s := by
  unfold strip
  rw [dropWhile_ws_of_no_ws h, dropWhile_ws_of_no_ws, List.reverse_reverse]
  intro c hc
  exact h c (List.mem_reverse.mp hc)

theorem strip_of_isdigit {s : Str} (h : isdigit s = true) : strip s = s :=
  strip_of_no_ws (fun c hc => not_ws_of_isDigit (mem_digit_of_isdigit h c hc))

theorem stripQuotes_of_isdigit {s : Str} (h : isdigit s = true) : stripQuotes s = s := by
  cases s with
  | nil => rfl
  | cons c rest =>
    cases rest with
    | nil => rfl
    | cons d rest' =>
      have hc : c.isDigit = true := mem_digit_of_isdigit h c (by simp)
      simp only [stripQuotes]
      rw [if_neg]
      intro hcond
      rcases hcond.2 with heq | heq
      · exact ne_of_digit hc (by decide) heq
      · exact ne_of_digit hc (by decide) heq

theorem splitFirst_of_not_mem {sep : Char} {s : Str} (h : sep ∉ s) :
    splitFirst sep s = none := by
  induction s with
  | nil => rfl
  | cons c rest ih =>
    have hcne : ¬ c = sep := by
      intro heq; subst heq; exact h (List.mem_cons_self c rest)
    have hrest : sep ∉ rest := fun hm => h (List.mem_cons_of_mem c hm)
    simp only [splitFirst]
    rw [if_neg hcne, ih hrest]

theorem splitFirst_append {sep : Char} {l r : Str} (h : sep ∉ l) :
    splitFirst sep (l ++ sep :: r) = some (l, r) := by
  induction l with
  | nil => simp [splitFirst]
  | cons c rest ih =>
    have hcne : ¬ c = sep := by
      intro heq; subst heq; exact h (List.mem_cons_self c rest)
    have hrest : sep ∉ rest := fun hm => h (List.mem_cons_of_mem c hm)
    simp only [List.cons_append, splitFirst, List.append_eq]
    rw [if_neg hcne, ih hrest]

theorem splitAll_of_not_mem {sep : Char} {s : Str} (h : sep ∉ s) :
    splitAll sep s = [s] := by
  induction s with
  | nil => rfl
  | cons c rest ih =>
    have hcne : ¬ c = sep := by
      intro heq; subst heq; exact h (List.mem_cons_self c rest)
    have hrest : sep ∉ rest := fun hm => h (List.mem_cons_of_mem c hm)
    simp only [splitAll]
    rw [if_neg hcne, ih hrest]

theorem splitAll_append {sep : Char} {l r : Str} (h : sep ∉ l) :
    splitAll sep (l ++ sep :: r) = l :: splitAll sep r := by
  induction l with
  | nil => simp [splitAll]
  | cons c rest ih =>
    have hcne : ¬ c = sep := by
      intro heq; subst heq; exact h (List.mem_cons_self c rest)
    have hrest : sep ∉ rest := fun hm => h (List.mem_cons_of_mem c hm)
    simp only [List.cons_append, splitAll, List.append_eq]
    rw [if_neg hcne, ih hrest]

theorem dictGet_insert {α : Type} (k q : Str) (v : α) (m : List (Str × α)) :
    dictGet k (dictInsert q v m) = if q = k then some v else dictGet k m := by
  induction m with
  | nil => simp [dictInsert, dictGet]
  | cons kv rest ih =>
    obtain ⟨k0, v0⟩ := kv
    simp only [dictInsert, dictGet]
    by_cases h0 : k0 = q
    · subst h0
      by_cases h1 : k0 = k <;> simp [dictGet, h1]
    · rw [if_neg h0]
      simp only [dictGet]
      by_cases h1 : k0 = k
      · subst h1
        rw [if_pos rfl, if_pos rfl, if_neg (fun hq => h0 hq.symm)]
      · rw [if_neg h1, if_neg h1, ih]

theorem getMulti_multiAppend_same {α : Type} (k : Str) (v : α)
    (m : List (Str × List α)) :
    getMulti k (multiAppend k v m) = getMulti k m ++ [v] := by
  induction m with
  | nil => simp [multiAppend, getMulti, dictGet]
  | cons kv rest ih =>
    obtain ⟨k0, vs⟩ := kv
    simp only [multiAppend]
    by_cases h0 : k0 = k
    · subst h0
      simp [getMulti, dictGet]
    · rw [if_neg h0]
      simp only [getMulti, dictGet] at *
      rw [if_neg h0, if_neg h0, ih]

theorem getMulti_multiAppend_other {α : Type} {k q : Str} (v : α)
    (m : List (Str × List α)) (h : q ≠ k) :
    getMulti k (multiAppend q v m) = getMulti k m := by
  induction m with
  | nil => simp [multiAppend, getMulti, dictGet, h]
  | cons kv rest ih =>
    obtain ⟨k0, vs⟩ := kv
    simp only [multiAppend]
    by_cases h0 : k0 = q
    · subst h0
      simp only [if_pos rfl, getMulti, dictGet]
      rw [if_neg h, if_neg h]
    · rw [if_neg h0]
      simp only [getMulti, dictGet] at *
      by_cases h1 : k0 = k
      · rw [if_pos h1, if_pos h1]
      · rw [if_neg h1, if_neg h1, ih]

/-! ## Characterisation of the built channel directory -/

/-- All refs carried by a list of server refs, in build order. -/
def refsOfServers (srefs : List ServerRef) : List ChannelRef :=
  (srefs.map ServerRef.channels).flatten

theorem refsOfServers_cons (s : ServerRef) (rest : List ServerRef) :
    refsOfServers (s :: rest) = s.channels ++ refsOfServers rest := by
  simp [refsOfServers]

theorem insertRef_by_id (ref : ChannelRef) (st : BuildState) :
    (insertRef ref st).by_id = dictInsert ref.channel_id ref st.by_id := by
  unfold insertRef; split <;> rfl

theorem insertRef_by_name (ref : ChannelRef) (st : BuildState) :
    (insertRef ref st).by_name =
      if ref.channel_name ≠ [] then
        multiAppend (casefold ref.channel_name) ref st.by_name
      else st.by_name := by
  unfold insertRef; split <;> simp_all

theorem processChannels_refs (g sn : Str) (si : Nat) (ci : Nat)
    (cs : List ChannelRecord) (st : BuildState) :
    (processChannels g sn si ci cs st).1 =
      (List.enumFrom ci cs).filterMap (fun p =>
        if p.2.id = [] then none else some (mkChannelRef g sn si p.1 p.2)) := by
  induction cs generalizing ci st with
  | nil => rfl
  | cons c rest ih =>
    simp only [processChannels, List.enumFrom_cons, List.filterMap_cons]
    by_cases hid : c.id = []
    · rw [if_pos hid, if_pos hid]
      exact ih _ _
    · rw [if_neg hid, if_neg hid]
      dsimp only
      rw [ih]

theorem processChannels_by_id (g sn : Str) (si ci : Nat)
    (cs : List ChannelRecord) (st : BuildState) (k : Str) :
    dictGet k (processChannels g sn si ci cs st).2.by_id =
      (List.find? (fun r => r.channel_id == k)
          (processChannels g sn si ci cs st).1.reverse).or (dictGet k st.by_id) := by
  induction cs generalizing ci st with
  | nil => simp [processChannels]
  | cons c rest ih =>
    simp only [processChannels]
    by_cases hid : c.id = []
    · rw [if_pos hid]
      exact ih _ _
    · rw [if_neg hid]
      dsimp only
      rw [ih, insertRef_by_id, dictGet_insert, List.reverse_cons, List.find?_append,
        Option.or_assoc]
      congr 1
      by_cases hk : (mkChannelRef g sn si ci c).channel_id = k
      · simp [List.find?_cons, hk]
      · simp [List.find?_cons, List.find?_nil, hk]

theorem processChannels_by_name (g sn : Str) (si ci : Nat)
    (cs : List ChannelRecord) (st : BuildState) (k : Str) :
    getMulti k (processChannels g sn si ci cs st).2.by_name =
      getMulti k st.by_name ++
        (processChannels g sn si ci cs st).1.filter
          (fun r => !r.channel_name.isEmpty && (casefold r.channel_name == k)) := by
  induction cs generalizing ci st with
  | nil => simp [processChannels]
  | cons c rest ih =>
    simp only [processChannels]
    by_cases hid : c.id = []
    · rw [if_pos hid]
      exact ih _ _
    · rw [if_neg hid]
      dsimp only
      rw [ih, List.filter_cons, insertRef_by_name]
      by_cases hname : (mkChannelRef g sn si ci c).channel_name = []
      · rw [if_neg (by simp [hname])]
        have hq : (!(mkChannelRef g sn si ci c).channel_name.isEmpty &&
            (casefold (mkChannelRef g sn si ci c).channel_name == k)) = false := by
          simp [hname]
        rw [if_neg (by simp [hq])]
      · rw [if_pos hname]
        by_cases hkey : casefold (mkChannelRef g sn si ci c).channel_name = k
        · have h2 : getMulti k (multiAppend (casefold (mkChannelRef g sn si ci c).channel_name)
              (mkChannelRef g sn si ci c) st.by_name) =
              getMulti k st.by_name ++ [mkChannelRef g sn si ci c] := by
            rw [hkey]
            exact getMulti_multiAppend_same k _ st.by_name
          have hq : (!(mkChannelRef g sn si ci c).channel_name.isEmpty &&
              (casefold (mkChannelRef g sn si ci c).channel_name == k)) = true := by
            simp [hname, hkey, List.isEmpty_iff]
          rw [h2, if_pos hq, List.append_assoc]
          rfl
        · rw [getMulti_multiAppend_other _ _ hkey]
          have hq : (!(mkChannelRef g sn si ci c).channel_name.isEmpty &&
              (casefold (mkChannelRef g sn si ci c).channel_name == k)) = false := by
            simp [hkey]
          rw [if_neg (by simp [hq])]

theorem processServerChannels_by_id (i : Nat) (server : ServerRecord)
    (st : BuildState) (k : Str) :
    dictGet k (processServerChannels i server st).2.by_id =
      (List.find? (fun r => r.channel_id == k)
          (processServerChannels i server st).1.reverse).or (dictGet k st.by_id) := by
  unfold processServerChannels
  cases server.channels with
  | some cs => exact processChannels_by_id _ _ _ _ _ _ _
  | none => simp

theorem processServerChannels_by_name (i : Nat) (server : ServerRecord)
    (st : BuildState) (k : Str) :
    getMulti k (processServerChannels i server st).2.by_name =
      getMulti k st.by_name ++
        (processServerChannels i server st).1.filter
          (fun r => !r.channel_name.isEmpty && (casefold r.channel_name == k)) := by
  unfold processServerChannels
  cases server.channels with
  | some cs => exact processChannels_by_name _ _ _ _ _ _ _
  | none => simp

theorem processServers_by_id (i : Nat) (ss : List ServerRecord) (st : BuildState)
    (k : Str) :
    dictGet k (processServers i ss st).2.by_id =
      (List.find? (fun r => r.channel_id == k)
          (refsOfServers (processServers i ss st).1).reverse).or (dictGet k st.by_id) := by
  induction ss generalizing i st with
  | nil => simp [processServers, refsOfServers]
  | cons server rest ih =>
    simp only [processServers]
    rw [ih, processServerChannels_by_id, refsOfServers_cons, List.reverse_append,
      List.find?_append, Option.or_assoc]

theorem processServers_by_name (i : Nat) (ss : List ServerRecord) (st : BuildState)
    (k : Str) :
    getMulti k (processServers i ss st).2.by_name =
      getMulti k st.by_name ++
        (refsOfServers (processServers i ss st).1).filter
          (fun r => !r.channel_name.isEmpty && (casefold r.channel_name == k)) := by
  induction ss generalizing i st with
  | nil => simp [processServers, refsOfServers]
  | cons server rest ih =>
    simp only [processServers]
    rw [ih, processServerChannels_by_name, refsOfServers_cons, List.filter_append,
      List.append_assoc]

theorem build_by_id (servers : List ServerRecord) (k : Str) :
    dictGet k (build_channel_index servers).by_id =
      List.find? (fun r => r.channel_id == k)
        (allRefs (build_channel_index servers)).reverse := by
  have h := processServers_by_id 1 servers ⟨[], []⟩ k
  have hnil : dictGet k (⟨[], []⟩ : BuildState).by_id = none := rfl
  rw [hnil] at h
  simpa [build_channel_index, allRefs, refsOfServers] using h

theorem build_by_name (servers : List ServerRecord) (k : Str) :
    getMulti k (build_channel_index servers).by_name =
      (allRefs (build_channel_index servers)).filter
        (fun r => !r.channel_name.isEmpty && (casefold r.channel_name == k)) := by
  have h := processServers_by_name 1 servers ⟨[], []⟩ k
  have hnil : getMulti k (⟨[], []⟩ : BuildState).by_name = [] := rfl
  rw [hnil] at h
  simpa [build_channel_index, allRefs, refsOfServers] using h

theorem stripQuotes_not_quote {c : Char} {rest : Str}
    (hc : ¬(c = squoteChar ∨ c = dquoteChar)) : stripQuotes (c :: rest) = c :: rest := by
  cases rest with
  | nil => rfl
  | cons d rest' =>
    simp only [stripQuotes]
    rw [if_neg]
    intro hcond
    exact hc hcond.2

/-- Full evaluation of `resolve_goto_argument` on a `digits:digits` argument:
bounds are checked on the 1-based indices and, in bounds, the ref at that
list position is returned. -/
theorem resolve_colon_digits (ci : ChannelIndex) (l r : Str)
    (hl : isdigit l = true) (hr : isdigit r = true) :
    resolve_goto_argument (l ++ ':' :: r) ci =
      (if strToNat l < 1 ∨ ci.servers.length < strToNat l then
        (none, some (lit "unknown server index: " ++ l))
      else if strToNat r < 1 ∨
          (ci.servers.getD (strToNat l - 1) dummyServerRef).channels.length < strToNat r then
        (none, some (lit "unknown channel index: " ++ l ++ ':' :: r))
      else
        (some ((ci.servers.getD (strToNat l - 1) dummyServerRef).channels.getD
          (strToNat r - 1) dummyChannelRef), none)) := by
  have hlq := mem_digit_of_isdigit hl
  have hrq := mem_digit_of_isdigit hr
  have hnows : ∀ c ∈ l ++ ':' :: r, c.isWhitespace = false := by
    intro c hc
    rcases List.mem_append.mp hc with h1 | h2
    · exact not_ws_of_isDigit (hlq c h1)
    · rcases List.mem_cons.mp h2 with h3 | h4
      · subst h3; decide
      · exact not_ws_of_isDigit (hrq c h4)
  have harg := strip_of_no_ws hnows
  obtain ⟨c0, l0, rfl⟩ : ∃ c rest, l = c :: rest := by
    cases l with
    | nil => exact absurd hl (by decide)
    | cons a b => exact ⟨a, b, rfl⟩
  have hc0 : c0.isDigit = true := hlq c0 (List.mem_cons_self c0 l0)
  have hq : stripQuotes ((c0 :: l0) ++ ':' :: r) = (c0 :: l0) ++ ':' :: r := by
    rw [List.cons_append]
    rw [stripQuotes_not_quote (by
      intro hcq
      rcases hcq with h | h <;> exact ne_of_digit hc0 (by decide) h)]
  have hsplit : splitFirst ':' ((c0 :: l0) ++ ':' :: r) = some (c0 :: l0, r) :=
    splitFirst_append (not_mem_of_digits hlq (by decide))
  unfold resolve_goto_argument
  rw [harg, hq]
  rw [if_neg (by simp)]
  rw [hsplit]
  dsimp only
  rw [strip_of_isdigit hl, strip_of_isdigit hr]
  rw [if_neg (by
    intro hcon
    rcases hcon with h | h
    · exact isdigit_ne_nil hl h
    · exact isdigit_ne_nil hr h)]
  rw [if_pos hl]
  rw [if_pos hr]

/-- Evaluation of `resolve_goto_argument` on an argument that reaches the
bare-name branch (no colon, no slash, not a digit string). -/
theorem resolve_bare_name (arg : Str) (ci : ChannelIndex)
    (hne : stripQuotes (strip arg) ≠ [])
    (hcolon : ':' ∉ stripQuotes (strip arg))
    (hslash : '/' ∉ stripQuotes (strip arg))
    (hdig : isdigit (stripQuotes (strip arg)) = false) :
    resolve_goto_argument arg ci =
      (match getMulti (normalize_name (stripQuotes (strip arg))) ci.by_name with
       | [] => (none, some (lit "unknown channel name: " ++ stripQuotes (strip arg)))
       | [m] => (some m, none)
       | ms =>
         (none, some (lit "ambiguous channel name: " ++ stripQuotes (strip arg) ++
           lit " (" ++
           List.intercalate (lit ", ")
             (ms.map (fun r => natToStr r.server_index ++ ':' :: natToStr r.channel_index)) ++
           lit ")"))) := by
  unfold resolve_goto_argument
  rw [if_neg hne, splitFirst_of_not_mem hcolon]
  dsimp only
  rw [if_neg hslash, if_neg (by simp [hdig])]

/-- `find?` on a list of refs with pairwise distinct channel ids locates a
member by its own channel id. -/
theorem find?_channel_id_unique (l : List ChannelRef) (ref : ChannelRef)
    (hnodup : (l.map ChannelRef.channel_id).Nodup) (hmem : ref ∈ l) :
    List.find? (fun r => r.channel_id == ref.channel_id) l = some ref := by
  induction l with
  | nil => cases hmem
  | cons a t ih =>
    rcases List.mem_cons.mp hmem with heq | hmem'
    · subst heq
      simp [List.find?_cons]
    · have hnodup' : a.channel_id ∉ t.map ChannelRef.channel_id ∧
          (t.map ChannelRef.channel_id).Nodup := by
        rw [List.map_cons] at hnodup
        exact List.nodup_cons.mp hnodup
      have hane : ¬ a.channel_id = ref.channel_id := by
        intro heq
        have h1 : ref.channel_id ∈ t.map ChannelRef.channel_id :=
          List.mem_map_of_mem ChannelRef.channel_id hmem'
        rw [heq] at hnodup'
        exact hnodup'.1 h1
      have hpa : (a.channel_id == ref.channel_id) = false := by
        simp [hane]
      rw [List.find?_cons, hpa]
      exact ih hnodup'.2 hmem'

/-- C4: a `serverIndex:channelIndex` goto reference with both sides numeric
resolves, in bounds, to exactly the ChannelRef at that 1-based position;
an out-of-bounds server index yields the "unknown server index" error and an
out-of-bounds channel index the "unknown channel index" error, with no
channel returned in either case. -/
theorem resolve_positional_reference (ci : ChannelIndex) (l r : Str)
    (hl : isdigit l = true) (hr : isdigit r = true) :
    (1 ≤ strToNat l ∧ strToNat l ≤ ci.servers.length ∧
      1 ≤ strToNat r ∧
      strToNat r ≤ (ci.servers.getD (strToNat l - 1) dummyServerRef).channels.length →
      resolve_goto_argument (l ++ ':' :: r) ci =
        (some ((ci.servers.getD (strToNat l - 1) dummyServerRef).channels.getD
          (strToNat r - 1) dummyChannelRef), none)) ∧
    (strToNat l < 1 ∨ ci.servers.length < strToNat l →
      resolve_goto_argument (l ++ ':' :: r) ci =
        (none, some (lit "unknown server index: " ++ l))) ∧
    (1 ≤ strToNat l ∧ strToNat l ≤ ci.servers.length ∧
      (strToNat r < 1 ∨
        (ci.servers.getD (strToNat l - 1) dummyServerRef).channels.length < strToNat r) →
      resolve_goto_argument (l ++ ':' :: r) ci =
        (none, some (lit "unknown channel index: " ++ l ++ ':' :: r))) := by
  rw [resolve_colon_digits ci l r hl hr]
  refine ⟨?_, ?_, ?_⟩
  · intro h
    rw [if_neg (by omega), if_neg (by omega)]
  · intro h
    rw [if_pos h]
  · intro h
    rw [if_neg (by omega), if_pos h.2.2]

/-- A small concrete directory used by the scenario conjuncts: server 1
"Alpha" with channels `random` (1:1) and `general` (1:2), server 2 "Beta"
with channel `General` (2:1). -/
def sampleServers : List ServerRecord :=
  [ { name := lit "Alpha", server_id := lit "1001", id := [],
      channels := some [ { id := lit "100", name := lit "random" },
                         { id := lit "101", name := lit "general" } ] },
    { name := lit "Beta", server_id := lit "2001", id := [],
      channels := some [ { id := lit "201", name := lit "General" } ] } ]

/-- The channel index built from `sampleServers`. -/
def sampleIndex : ChannelIndex := build_channel_index sampleServers

theorem resolve_positional_reference_witness :
    resolve_goto_argument (lit "2" ++ ':' :: lit "1") sampleIndex =
      (some ((sampleIndex.servers.getD (strToNat (lit "2") - 1) dummyServerRef).channels.getD
        (strToNat (lit "1") - 1) dummyChannelRef), none) :=
  (resolve_positional_reference sampleIndex (lit "2") (lit "1")
    (by decide) (by decide)).1 (by decide)

/-- C3: bare-name resolution is case-insensitive on the case-folded key; a
name matching exactly one channel directory-wide resolves to it, while a name
matching two or more fails with an ambiguity error listing every match as a
`server_index:channel_index` label; in the two-server scenario `general`
fails listing `1:2, 2:1` while `1:general` resolves to server 1's channel. -/
theorem resolve_bare_name_case_insensitive (servers : List ServerRecord) (name : Str)
    (hne : stripQuotes (strip name) ≠ [])
    (hcolon : ':' ∉ stripQuotes (strip name))
    (hslash : '/' ∉ stripQuotes (strip name))
    (hdig : isdigit (stripQuotes (strip name)) = false) :
    ((∀ ref : ChannelRef,
      (allRefs (build_channel_index servers)).filter
          (fun r => !r.channel_name.isEmpty &&
            (casefold r.channel_name == normalize_name (stripQuotes (strip name)))) = [ref] →
      resolve_goto_argument name (build_channel_index servers) = (some ref, none)) ∧
    (∀ (m1 m2 : ChannelRef) (ms : List ChannelRef),
      (allRefs (build_channel_index servers)).filter
          (fun r => !r.channel_name.isEmpty &&
            (casefold r.channel_name == normalize_name (stripQuotes (strip name)))) =
        m1 :: m2 :: ms →
      resolve_goto_argument name (build_channel_index servers) =
        (none, some (lit "ambiguous channel name: " ++ stripQuotes (strip name) ++
          lit " (" ++
          List.intercalate (lit ", ")
            ((m1 :: m2 :: ms).map
              (fun r => natToStr r.server_index ++ ':' :: natToStr r.channel_index)) ++
          lit ")")))) ∧
    resolve_goto_argument (lit "general") sampleIndex =
      (none, some (lit "ambiguous channel name: general (1:2, 2:1)")) ∧
    resolve_goto_argument (lit "1:general") sampleIndex =
      (some { guild_id := lit "1001", channel_id := lit "101",
              channel_name := lit "general", server_name := lit "Alpha",
              server_index := 1, channel_index := 2 }, none) := by
  refine ⟨⟨?_, ?_⟩, by decide, by decide⟩
  · intro ref hm
    rw [resolve_bare_name name (build_channel_index servers) hne hcolon hslash hdig,
      build_by_name, hm]
  · intro m1 m2 ms hm
    rw [resolve_bare_name name (build_channel_index servers) hne hcolon hslash hdig,
      build_by_name, hm]

theorem resolve_bare_name_case_insensitive_witness :
    resolve_goto_argument (lit "RANDOM") sampleIndex =
      (some { guild_id := lit "1001", channel_id := lit "100",
              channel_name := lit "random", server_name := lit "Alpha",
              server_index := 1, channel_index := 1 }, none) :=
  (resolve_bare_name_case_insensitive sampleServers (lit "RANDOM") (by decide) (by decide)
    (by decide) (by decide)).1.1 _ (by decide)

/-- C9: when channel ids are unique across the whole directory and numeric,
resolving a retained ref's own channel id as a bare goto argument returns
that very ChannelRef. -/
theorem resolve_roundtrip_by_id (servers : List ServerRecord) (ref : ChannelRef)
    (hmem : ref ∈ allRefs (build_channel_index servers))
    (hdig : isdigit ref.channel_id = true)
    (hnodup : ((allRefs (build_channel_index servers)).map ChannelRef.channel_id).Nodup) :
    resolve_goto_argument ref.channel_id (build_channel_index servers) =
      (some ref, none) := by
  have hq := mem_digit_of_isdigit hdig
  unfold resolve_goto_argument
  rw [strip_of_isdigit hdig, stripQuotes_of_isdigit hdig]
  rw [if_neg (isdigit_ne_nil hdig)]
  rw [splitFirst_of_not_mem (not_mem_of_digits hq (by decide))]
  dsimp only
  rw [if_neg (not_mem_of_digits hq (by decide))]
  rw [if_pos hdig, build_by_id]
  rw [find?_channel_id_unique ((allRefs (build_channel_index servers)).reverse) ref
    (by rw [List.map_reverse]; exact List.nodup_reverse.mpr hnodup)
    (List.mem_reverse.mpr hmem)]

theorem resolve_roundtrip_by_id_witness :
    resolve_goto_argument (lit "100") sampleIndex =
      (some { guild_id := lit "1001", channel_id := lit "100",
              channel_name := lit "random", server_name := lit "Alpha",
              server_index := 1, channel_index := 1 }, none) :=
  resolve_roundtrip_by_id sampleServers
    { guild_id := lit "1001", channel_id := lit "100", channel_name := lit "random",
      server_name := lit "Alpha", server_index := 1, channel_index := 1 }
    (by decide) (by decide) (by decide)

/-- C5: a `guildId/channelId` goto argument with both parts numeric never
fails: a known channel id returns the directory ref carrying the
caller-supplied guild id, and an unknown channel id still returns a
ChannelRef holding the two ids with empty names and zero indices. -/
theorem resolve_numeric_pair_never_fails (ci : ChannelIndex) (g c : Str)
    (hg : isdigit g = true) (hc : isdigit c = true) :
    resolve_goto_argument (g ++ '/' :: c) ci =
      (some (match dictGet c ci.by_id with
        | some ref =>
          { guild_id := g, channel_id := c, channel_name := ref.channel_name,
            server_name := ref.server_name, server_index := ref.server_index,
            channel_index := ref.channel_index }
        | none =>
          { guild_id := g, channel_id := c, channel_name := [], server_name := [],
            server_index := 0, channel_index := 0 }), none) := by
  have hgq := mem_digit_of_isdigit hg
  have hcq := mem_digit_of_isdigit hc
  have hnows : ∀ ch ∈ g ++ '/' :: c, ch.isWhitespace = false := by
    intro ch hch
    rcases List.mem_append.mp hch with h1 | h2
    · exact not_ws_of_isDigit (hgq ch h1)
    · rcases List.mem_cons.mp h2 with h3 | h4
      · subst h3; decide
      · exact not_ws_of_isDigit (hcq ch h4)
  have harg := strip_of_no_ws hnows
  obtain ⟨c0, g0, rfl⟩ : ∃ a b, g = a :: b := by
    cases g with
    | nil => exact absurd hg (by decide)
    | cons a b => exact ⟨a, b, rfl⟩
  have hc0 : c0.isDigit = true := hgq c0 (List.mem_cons_self c0 g0)
  have hquo : stripQuotes ((c0 :: g0) ++ '/' :: c) = (c0 :: g0) ++ '/' :: c := by
    rw [List.cons_append]
    rw [stripQuotes_not_quote (by
      intro hcq2
      rcases hcq2 with h | h <;> exact ne_of_digit hc0 (by decide) h)]
  have hnocolon : ':' ∉ (c0 :: g0) ++ '/' :: c := by
    intro hm
    rcases List.mem_append.mp hm with h1 | h2
    · exact absurd (hgq _ h1) (by decide)
    · rcases List.mem_cons.mp h2 with h3 | h4
      · exact absurd h3 (by decide)
      · exact absurd (hcq _ h4) (by decide)
  unfold resolve_goto_argument
  rw [harg, hquo, if_neg (by simp), splitFirst_of_not_mem hnocolon]
  dsimp only
  rw [if_pos (List.mem_append_right _ (List.mem_cons_self '/' c))]
  have hsplit : splitAll '/' ((c0 :: g0) ++ '/' :: c) = (c0 :: g0) :: splitAll '/' c :=
    splitAll_append (not_mem_of_digits hgq (by decide))
  have hsplitc : splitAll '/' c = [c] :=
    splitAll_of_not_mem (not_mem_of_digits hcq (by decide))
  rw [hsplit, hsplitc]
  have hfilter : ((c0 :: g0) :: [c]).filter (fun part => !part.isEmpty) =
      (c0 :: g0) :: [c] := by
    cases c with
    | nil => exact absurd hc (by decide)
    | cons a b => rfl
  rw [hfilter]
  dsimp only
  rw [if_pos (by simp [hg, hc])]
  cases dictGet c ci.by_id <;> rfl

theorem resolve_numeric_pair_never_fails_witness :
    resolve_goto_argument (lit "999" ++ '/' :: lit "888") sampleIndex =
      (some { guild_id := lit "999", channel_id := lit "888", channel_name := [],
              server_name := [], server_index := 0, channel_index := 0 }, none) := by
  rw [resolve_numeric_pair_never_fails sampleIndex (lit "999") (lit "888")
    (by decide) (by decide)]
  decide

/-- A directory input whose first channel record has an empty id: the record
is dropped but still consumes the 1-based position 1, so the retained channel
carries label 2 at list position 1. -/
def ghostServers : List ServerRecord :=
  [ { name := lit "S", server_id := lit "7", id := [],
      channels := some [ { id := [], name := lit "ghost" },
                         { id := lit "10", name := lit "real" } ] } ]

/-- The channel index built from `ghostServers`. -/
def ghostIndex : ChannelIndex := build_channel_index ghostServers

/-- C10: building the index silently drops channel records with an empty id
(they reach none of the three views) while their 1-based enumeration position
is still consumed, so a retained ref's `channel_index` label can exceed its
list position, and positional `server:channel` resolution selects by list
position rather than by the stored label. -/
theorem build_drops_empty_id_channels :
    (∀ (g sn : Str) (si ci : Nat) (cs : List ChannelRecord) (st : BuildState),
      (processChannels g sn si ci cs st).1 =
        (List.enumFrom ci cs).filterMap (fun p =>
          if p.2.id = [] then none else some (mkChannelRef g sn si p.1 p.2))) ∧
    (∀ (servers : List ServerRecord) (k : Str) (ref : ChannelRef),
      dictGet k (build_channel_index servers).by_id = some ref →
      ref ∈ allRefs (build_channel_index servers)) ∧
    (∀ (servers : List ServerRecord) (k : Str) (ref : ChannelRef),
      ref ∈ getMulti k (build_channel_index servers).by_name →
      ref ∈ allRefs (build_channel_index servers)) ∧
    (ghostIndex.by_id = [(lit "10",
      { guild_id := lit "7", channel_id := lit "10", channel_name := lit "real",
        server_name := lit "S", server_index := 1, channel_index := 2 })] ∧
    getMulti (lit "ghost") ghostIndex.by_name = [] ∧
    ghostIndex.servers.map (fun s => s.channels.map ChannelRef.channel_index) = [[2]] ∧
    (ghostIndex.servers.getD 0 dummyServerRef).channels.length = 1 ∧
    resolve_goto_argument (lit "1:2") ghostIndex =
      (none, some (lit "unknown channel index: 1:2")) ∧
    resolve_goto_argument (lit "1:1") ghostIndex =
      (some { guild_id := lit "7", channel_id := lit "10", channel_name := lit "real",
              server_name := lit "S", server_index := 1, channel_index := 2 }, none)) := by
  refine ⟨processChannels_refs, ?_, ?_, by decide⟩
  · intro servers k ref h
    rw [build_by_id] at h
    exact List.mem_reverse.mp (List.mem_of_find?_eq_some h)
  · intro servers k ref h
    rw [build_by_name] at h
    exact List.mem_of_mem_filter h

theorem build_drops_empty_id_channels_witness :
    ({ guild_id := lit "7", channel_id := lit "10", channel_name := lit "real",
       server_name := lit "S", server_index := 1, channel_index := 2 } : ChannelRef) ∈
      allRefs (build_channel_index ghostServers) :=
  build_drops_empty_id_channels.2.1 ghostServers (lit "10")
    { guild_id := lit "7", channel_id := lit "10", channel_name := lit "real",
      server_name := lit "S", server_index := 1, channel_index := 2 } (by decide)

/-! ## Dispatcher claims -/

theorem putAll_nodup (queues : Str → List Command) (targets : List Str) (c : Command)
    (h : targets.Nodup) :
    putAll queues targets c =
      fun id => if id ∈ targets then queues id ++ [c] else queues id := by
  induction targets generalizing queues with
  | nil =>
    funext id
    simp [putAll]
  | cons t ts ih =>
    have hmem : t ∉ ts := (List.nodup_cons.mp h).1
    have hnd' : ts.Nodup := (List.nodup_cons.mp h).2
    have hstep : putAll queues (t :: ts) c = putAll (putCommand queues t c) ts c := rfl
    rw [hstep, ih _ hnd']
    funext id
    by_cases h1 : id = t
    · subst h1
      simp [putCommand, List.mem_cons, hmem]
    · by_cases h2 : id ∈ ts
      · simp [putCommand, h1, h2, List.mem_cons]
      · simp [putCommand, h1, h2, List.mem_cons]

/-- Every branch of the dispatcher either acknowledges with `ok` or leaves
the queues exactly as they were. -/
theorem dispatch_cases (cfg : DispatchConfig) (queues : Str → List Command)
    (line source : Str) :
    (dispatch_command_line cfg queues line source).1 = lit "ok" ∨
    (dispatch_command_line cfg queues line source).2 = queues := by
  unfold dispatch_command_line dispatchResolved
  repeat' split
  all_goals simp

/-- The config captured by the scenario dispatches: one worker `monkey-1`,
the sample directory and no configured default channel. -/
def sampleCfg : DispatchConfig :=
  { monkey_ids := [lit "monkey-1"], channel_index := sampleIndex,
    default_channel := { guild_id := [], channel_id := [], label := [] } }

/-- Initially empty per-worker queues for the scenario dispatches. -/
def sampleQueues : Str → List Command := fun _ => []

/-- C2: whenever the dispatcher answers anything other than the literal `ok`
(unknown action, missing payload, unresolvable or ambiguous channel, unknown
`@target`, `home` without a default channel), every worker queue is left
unchanged; in particular `@ghost-worker say hi` with no such worker answers
"unknown monkey: ghost-worker" and `home` without a default channel answers
"default channel not configured", both without enqueueing anything. -/
theorem dispatch_validation_errors_enqueue_nothing (cfg : DispatchConfig)
    (queues : Str → List Command) (line source : Str) :
    ((dispatch_command_line cfg queues line source).1 ≠ lit "ok" →
      (dispatch_command_line cfg queues line source).2 = queues) ∧
    (dispatch_command_line sampleCfg sampleQueues
      (lit "@ghost-worker say hi") (lit "stdin")).1 = lit "unknown monkey: ghost-worker" ∧
    (dispatch_command_line sampleCfg sampleQueues
      (lit "@ghost-worker say hi") (lit "stdin")).2 = sampleQueues ∧
    (dispatch_command_line sampleCfg sampleQueues (lit "home") (lit "stdin")).1 =
      lit "default channel not configured" ∧
    (dispatch_command_line sampleCfg sampleQueues (lit "home") (lit "stdin")).2 =
      sampleQueues := by
  have hghost : (dispatch_command_line sampleCfg sampleQueues
      (lit "@ghost-worker say hi") (lit "stdin")).1 = lit "unknown monkey: ghost-worker" := by
    decide
  have hhome : (dispatch_command_line sampleCfg sampleQueues (lit "home") (lit "stdin")).1 =
      lit "default channel not configured" := by decide
  refine ⟨?_, hghost, ?_, hhome, ?_⟩
  · intro hne
    rcases dispatch_cases cfg queues line source with h | h
    · exact absurd h hne
    · exact h
  · rcases dispatch_cases sampleCfg sampleQueues (lit "@ghost-worker say hi") (lit "stdin")
      with h | h
    · exact absurd (hghost.symm.trans h) (by decide)
    · exact h
  · rcases dispatch_cases sampleCfg sampleQueues (lit "home") (lit "stdin") with h | h
    · exact absurd (hhome.symm.trans h) (by decide)
    · exact h

theorem dispatch_validation_errors_enqueue_nothing_witness :
    (dispatch_command_line sampleCfg sampleQueues (lit "oops") (lit "stdin")).2 =
      sampleQueues :=
  (dispatch_validation_errors_enqueue_nothing sampleCfg sampleQueues
    (lit "oops") (lit "stdin")).1 (by decide)

theorem dispatchResolved_say (cfg : DispatchConfig) (queues : Str → List Command)
    (cmd : Command) (targets : List Str) (source : Str) (hnd : targets.Nodup)
    (ha : cmd.action = lit "say") :
    dispatchResolved cfg queues cmd targets source =
      (lit "ok", fun id => if id ∈ targets then
        queues id ++ [{ target := cmd.target, action := lit "say", text := cmd.text,
                        source := source }] else queues id) := by
  unfold dispatchResolved
  rw [if_neg (by rw [ha]; decide), if_neg (by rw [ha]; decide), if_pos ha,
    putAll_nodup _ _ _ hnd]

theorem dispatchResolved_goto (cfg : DispatchConfig) (queues : Str → List Command)
    (cmd : Command) (targets : List Str) (source : Str) (ref : ChannelRef)
    (hnd : targets.Nodup) (ha : cmd.action = lit "goto")
    (hres : resolve_goto_argument cmd.text cfg.channel_index = (some ref, none)) :
    dispatchResolved cfg queues cmd targets source =
      (lit "ok", fun id => if id ∈ targets then
        queues id ++ [{ target := cmd.target, action := lit "goto", text := cmd.text,
                        guild_id := ref.guild_id, channel_id := ref.channel_id,
                        channel_name := ref.channel_name, source := source }]
        else queues id) := by
  unfold dispatchResolved
  rw [if_pos ha, hres]
  dsimp only
  rw [putAll_nodup _ _ _ hnd]

theorem dispatchResolved_home (cfg : DispatchConfig) (queues : Str → List Command)
    (cmd : Command) (targets : List Str) (source : Str) (hnd : targets.Nodup)
    (ha : cmd.action = lit "home") (hset : cfg.default_channel.is_set = true) :
    dispatchResolved cfg queues cmd targets source =
      (lit "ok", fun id => if id ∈ targets then
        queues id ++ [{ target := cmd.target, action := lit "goto", text := lit "home",
                        guild_id := cfg.default_channel.guild_id,
                        channel_id := cfg.default_channel.channel_id,
                        channel_name := cfg.default_channel.label,
                        source := source }] else queues id) := by
  unfold dispatchResolved
  rw [if_neg (by rw [ha]; decide), if_pos ha, if_neg (by rw [hset]; decide),
    putAll_nodup _ _ _ hnd]

/-- C7: a validated `goto`, `say` or `home` command makes the dispatcher
answer the literal `ok` and append exactly one copy of the resolved Command
to each targeted worker's queue (all known workers without an explicit
target, exactly the named worker otherwise), while `help` and `servers`
answer their usage/directory text and leave every queue untouched. -/
theorem dispatch_ok_enqueues_once (cfg : DispatchConfig) (queues : Str → List Command)
    (line source : Str) (cmd : Command)
    (hnd : cfg.monkey_ids.Nodup)
    (hp : parse_command_line line cfg.monkey_ids = (some cmd, none)) :
    (cmd.action = lit "help" →
      dispatch_command_line cfg queues line source = (build_help, queues)) ∧
    (cmd.action = lit "servers" →
      dispatch_command_line cfg queues line source =
        (format_servers cfg.channel_index, queues)) ∧
    (∀ targets : List Str,
      ((cmd.target = none ∧ targets = cfg.monkey_ids) ∨
        (∃ t, cmd.target = some t ∧ t ∈ cfg.monkey_ids ∧ targets = [t])) →
      ((cmd.action = lit "say" →
        dispatch_command_line cfg queues line source =
          (lit "ok", fun id => if id ∈ targets then
            queues id ++ [{ target := cmd.target, action := lit "say", text := cmd.text,
                            source := source }] else queues id)) ∧
      (∀ ref : ChannelRef, cmd.action = lit "goto" →
        resolve_goto_argument cmd.text cfg.channel_index = (some ref, none) →
        dispatch_command_line cfg queues line source =
          (lit "ok", fun id => if id ∈ targets then
            queues id ++ [{ target := cmd.target, action := lit "goto", text := cmd.text,
                            guild_id := ref.guild_id, channel_id := ref.channel_id,
                            channel_name := ref.channel_name, source := source }]
            else queues id)) ∧
      (cmd.action = lit "home" → cfg.default_channel.is_set = true →
        dispatch_command_line cfg queues line source =
          (lit "ok", fun id => if id ∈ targets then
            queues id ++ [{ target := cmd.target, action := lit "goto",
                            text := lit "home",
                            guild_id := cfg.default_channel.guild_id,
                            channel_id := cfg.default_channel.channel_id,
                            channel_name := cfg.default_channel.label,
                            source := source }] else queues id)))) := by
  unfold dispatch_command_line
  rw [hp]
  dsimp only
  refine ⟨?_, ?_, ?_⟩
  · intro ha
    rw [if_pos ha]
  · intro ha
    rw [if_neg (by rw [ha]; decide), if_pos ha]
  · intro targets htg
    obtain ⟨hm, htnd⟩ : (match cmd.target with
        | some t =>
          if t ∈ cfg.monkey_ids then dispatchResolved cfg queues cmd [t] source
          else (lit "unknown monkey: " ++ t, queues)
        | none => dispatchResolved cfg queues cmd cfg.monkey_ids source) =
          dispatchResolved cfg queues cmd targets source ∧ targets.Nodup := by
      rcases htg with ⟨ht, htt⟩ | ⟨t, ht, htm, htt⟩
      · constructor
        · rw [ht, htt]
        · rw [htt]; exact hnd
      · constructor
        · rw [ht]
          dsimp only
          rw [if_pos htm, htt]
        · rw [htt]; exact List.nodup_singleton t
    refine ⟨?_, ?_, ?_⟩
    · intro ha
      rw [if_neg (by rw [ha]; decide), if_neg (by rw [ha]; decide), hm]
      exact dispatchResolved_say cfg queues cmd targets source htnd ha
    · intro ref ha hres
      rw [if_neg (by rw [ha]; decide), if_neg (by rw [ha]; decide), hm]
      exact dispatchResolved_goto cfg queues cmd targets source ref htnd ha hres
    · intro ha hset
      rw [if_neg (by rw [ha]; decide), if_neg (by rw [ha]; decide), hm]
      exact dispatchResolved_home cfg queues cmd targets source htnd ha hset

theorem dispatch_ok_enqueues_once_witness :
    dispatch_command_line sampleCfg sampleQueues (lit "say hi") (lit "stdin") =
      (lit "ok", fun id => if id ∈ sampleCfg.monkey_ids then
        sampleQueues id ++ [{ target := none, action := lit "say", text := lit "hi",
                              source := lit "stdin" }] else sampleQueues id) :=
  ((dispatch_ok_enqueues_once sampleCfg sampleQueues (lit "say hi") (lit "stdin")
      { target := none, action := lit "say", text := lit "hi" } (by decide)
      (by decide)).2.2 sampleCfg.monkey_ids (Or.inl ⟨rfl, rfl⟩)).1 rfl

/-! ## events.py event model and the cli.py orchestrator event handler -/

/-- `MessageEvent` (events.py lines 10-27; the `raw` payload is omitted). -/
structure MessageEvent where
  account_id : Str
  message_id : Str
  channel_id : Str
  channel_name : Str
  guild_id : Str
  author_name : Str
  author_id : Str
  content : Str
  timestamp : Str
  source : Str
  system : Bool := false
deriving DecidableEq

/-- `SystemEvent` (events.py lines 30-38). -/
structure SystemEvent where
  account_id : Str
  content : Str
  important : Bool := false
deriving DecidableEq

/-- `ChannelSwitchEvent` (events.py lines 41-49). -/
structure ChannelSwitchEvent where
  account_id : Str
  channel_id : Str
  channel_name : Str
deriving DecidableEq

/-- The `Event` union (events.py line 52). -/
inductive Event where
  | message (e : MessageEvent)
  | system (e : SystemEvent)
  | channelSwitch (e : ChannelSwitchEvent)
deriving DecidableEq

/-- `content.replace("\n", "\\n")` in `format_message`. -/
def escapeNewlines (s : Str) : Str :=
  (s.map (fun c => if c = '\n' then ['\\', 'n'] else [c])).flatten

/-- `format_message(event)` (events.py lines 120-125). -/
def format_message (event : MessageEvent) : Str :=
  (if event.channel_name ≠ [] then event.channel_name
   else if event.channel_id ≠ [] then event.channel_id else lit "unknown-channel") ++
  ' ' ::
  (if event.author_name ≠ [] then event.author_name
   else if event.author_id ≠ [] then event.author_id else lit "unknown-user") ++
  ':' :: ' ' ::
  escapeNewlines (if event.content ≠ [] then event.content else lit "<no text>")

/-- `format_channel_switch(event)` (events.py lines 128-130). -/
def format_channel_switch (event : ChannelSwitchEvent) : Str :=
  event.account_id ++ ' ' :: lit "watching: " ++
    (if event.channel_name ≠ [] then event.channel_name
     else if event.channel_id ≠ [] then event.channel_id else lit "unknown-channel")

/-- `format_system(event)` (events.py lines 133-134). -/
def format_system (event : SystemEvent) : Str := event.content

/-- `format_event(event)` (events.py lines 137-142). -/
def format_event : Event → Str
  | .message e => format_message e
  | .channelSwitch e => format_channel_switch e
  | .system e => format_system e

/-- The admin-routing step of `handle_event` (cli.py lines 175-183): decides
whether the (new) message is routed to the dispatcher, and with which
stripped line and synthetic source. -/
def admin_route (is_new : Bool) (admin_user_ids : List Str) (e : MessageEvent) :
    Option (Str × Str) :=
  if is_new = true ∧ e.author_id ≠ [] ∧ e.author_id ∈ admin_user_ids then
    if (lit "monkeys").isPrefixOf (casefold (strip e.content)) then
      (match lstrip ((strip e.content).drop (lit "monkeys").length) with
       | c :: restR =>
         if c = ':' then
           (if lstrip restR ≠ [] then
             some (lstrip restR, lit "discord:" ++ e.author_id) else none)
         else some (c :: restR, lit "discord:" ++ e.author_id)
       | [] => none)
    else none
  else none

/-- The response printing for a routed admin command (cli.py lines 183-186):
any response other than `""` and `"ok"` is printed. -/
def admin_route_printed (dispatch_command : Str → Str → Str)
    (route : Option (Str × Str)) : List Str :=
  match route with
  | some linesrc =>
    if dispatch_command linesrc.1 linesrc.2 ∉ ([[], lit "ok"] : List Str) then
      [dispatch_command linesrc.1 linesrc.2]
    else []
  | none => []

/-- The channel-switch synthesis of `handle_event` (cli.py lines 188-199):
updates the per-account last-channel map and prints a switch line. -/
def switch_update (e : MessageEvent) (last : List (Str × Str)) :
    List (Str × Str) × List Str :=
  if (if e.channel_id ≠ [] then e.channel_id else e.channel_name) ≠ [] ∧
      dictGet e.account_id last ≠
        some (if e.channel_id ≠ [] then e.channel_id else e.channel_name) then
    (dictInsert e.account_id (if e.channel_id ≠ [] then e.channel_id else e.channel_name)
      last,
     if (if e.channel_name ≠ [] then e.channel_name else e.channel_id) ≠ [] then
       [format_event (.channelSwitch
         { account_id := e.account_id, channel_id := e.channel_id,
           channel_name := e.channel_name })]
     else [])
  else (last, [])

/-- The outcome of one `handle_event` call: the updated dedupe cache, the
admin command routed to the dispatcher (if any), the updated last-channel
map, and the console lines printed, in order. -/
structure HandleOutcome where
  dedupe : GlobalDedupe
  dispatched : Option (Str × Str)
  last_channel_by_account : List (Str × Str)
  printed : List Str
deriving DecidableEq

/-- `handle_event(event, ...)` (cli.py lines 148-204), with the dispatcher
passed in as a function from line and source to the response string. -/
def handle_event (event : Event) (debug : Bool) (dedupe : GlobalDedupe)
    (admin_user_ids : List Str) (dispatch_command : Str → Str → Str)
    (last_channel_by_account : List (Str × Str)) : HandleOutcome :=
  match event with
  | .system e =>
    if debug = true ∨ e.important = true then
      ⟨dedupe, none, last_channel_by_account, [format_event (.system e)]⟩
    else ⟨dedupe, none, last_channel_by_account, []⟩
  | .channelSwitch e =>
    if (if e.channel_name ≠ [] then e.channel_name else e.channel_id) ≠ [] then
      ⟨dedupe, none,
        dictInsert e.account_id
          (if e.channel_id ≠ [] then e.channel_id
           else if e.channel_name ≠ [] then e.channel_name else e.channel_id)
          last_channel_by_account,
        [format_event (.channelSwitch e)]⟩
    else ⟨dedupe, none, last_channel_by_account, []⟩
  | .message e =>
    ⟨(dedupe.allow e.message_id).2,
     admin_route (dedupe.allow e.message_id).1 admin_user_ids e,
     (switch_update e last_channel_by_account).1,
     admin_route_printed dispatch_command
         (admin_route (dedupe.allow e.message_id).1 admin_user_ids e) ++
       (switch_update e last_channel_by_account).2 ++
       (if (dedupe.allow e.message_id).1 = true then [format_event (.message e)] else [])⟩

/-- A message from an admin author whose content starts with `monkeys` glued
to further letters (no word boundary): `monkeysay hi`. -/
def sampleLooseEvent : MessageEvent :=
  { account_id := lit "monkey-1", message_id := lit "m1", channel_id := lit "100",
    channel_name := lit "random", guild_id := lit "1001", author_name := lit "Admin",
    author_id := lit "9", content := lit "monkeysay hi", timestamp := [], source := [] }

/-- C8: a newly-seen message from an allow-listed author whose trimmed
content case-insensitively starts with `monkeys` (optionally followed by a
colon) has the prefix stripped and the non-empty remainder dispatched with
source `discord:<author id>`; the match has no word-boundary check, so
`monkeysay hi` routes the remainder `ay hi`. -/
theorem admin_prefix_routed (debug : Bool) (dedupe : GlobalDedupe)
    (admins : List Str) (dispatch_command : Str → Str → Str)
    (last : List (Str × Str)) (e : MessageEvent)
    (hnew : (dedupe.allow e.message_id).1 = true)
    (hadm : e.author_id ∈ admins) (hne : e.author_id ≠ [])
    (hpre : (lit "monkeys").isPrefixOf (casefold (strip e.content)) = true) :
    ((∀ c restR, lstrip ((strip e.content).drop (lit "monkeys").length) = c :: restR →
      c ≠ ':' →
      (handle_event (.message e) debug dedupe admins dispatch_command last).dispatched =
        some (c :: restR, lit "discord:" ++ e.author_id)) ∧
    (∀ restR, lstrip ((strip e.content).drop (lit "monkeys").length) = ':' :: restR →
      lstrip restR ≠ [] →
      (handle_event (.message e) debug dedupe admins dispatch_command last).dispatched =
        some (lstrip restR, lit "discord:" ++ e.author_id))) ∧
    (handle_event (.message sampleLooseEvent) false (GlobalDedupe.init 10) [lit "9"]
        (fun _ _ => lit "ok") []).dispatched =
      some (lit "ay hi", lit "discord:9") := by
  refine ⟨⟨?_, ?_⟩, by decide⟩
  · intro c restR hrem hc
    show admin_route (dedupe.allow e.message_id).1 admins e =
      some (c :: restR, lit "discord:" ++ e.author_id)
    unfold admin_route
    rw [if_pos ⟨hnew, hne, hadm⟩, if_pos hpre, hrem]
    dsimp only
    rw [if_neg hc]
  · intro restR hrem hrne
    show admin_route (dedupe.allow e.message_id).1 admins e =
      some (lstrip restR, lit "discord:" ++ e.author_id)
    unfold admin_route
    rw [if_pos ⟨hnew, hne, hadm⟩, if_pos hpre, hrem]
    dsimp only
    rw [if_pos rfl, if_pos hrne]

theorem admin_prefix_routed_witness :
    (handle_event
        (.message { account_id := lit "monkey-1", message_id := lit "m2",
                    channel_id := lit "100", channel_name := lit "random",
                    guild_id := lit "1001", author_name := lit "Admin",
                    author_id := lit "9", content := lit "Monkeys: say hi",
                    timestamp := [], source := [] })
        false (GlobalDedupe.init 10) [lit "9"] (fun _ _ => lit "ok") []).dispatched =
      some (lit "say hi", lit "discord:" ++ lit "9") :=
  (admin_prefix_routed false (GlobalDedupe.init 10) [lit "9"] (fun _ _ => lit "ok") []
    { account_id := lit "monkey-1", message_id := lit "m2", channel_id := lit "100",
      channel_name := lit "random", guild_id := lit "1001", author_name := lit "Admin",
      author_id := lit "9", content := lit "Monkeys: say hi", timestamp := [],
      source := [] }
    (by decide) (by decide) (by decide) (by decide)).1.2 (lit " say hi")
    (by decide) (by decide)
